import Mathlib

/-!
Verification of the fp-bindgen core: the type intermediate representation
with its `Serializable` resolver (`fp-bindgen/src/serializable/mod.rs`), and
the generated wasmer-runtime host bindings
(`examples/example-protocol/src/assets/rust_wasmer_runtime_test/expected_bindings.rs`).

Rust values are embedded shallowly: `TypeMap` (a `BTreeMap<TypeIdent, Type>`)
becomes an association list with insert-if-absent, machine integers carried
across the wasm boundary become `Nat`/`Int`, and the parts of the repository
that live outside the sources at hand (the `types` module, the macro-generated
primitive impls, and the `fp-bindgen-support` runtime crate) are modelled from
the specification, as marked on each such definition.
-/

namespace FpBindgen

/-- The canonical name of a type: a name plus an ordered list of generic
argument idents.  Mirrors `TypeIdent { name, generic_args }` as constructed
throughout `serializable/mod.rs`; equality is structural. -/
inductive TypeIdent
| mk (name : String) (generic_args : List TypeIdent)

/-- Mirrors `TypeIdent::from("T")`: a bare name with no generic arguments. -/
def TypeIdent.fromName (name : String) : TypeIdent :=
  TypeIdent.mk name []

mutual
/-- Structural boolean equality on `TypeIdent` (name, then argument list). -/
def TypeIdent.beq : TypeIdent → TypeIdent → Bool
  | .mk n as, .mk m bs => n == m && TypeIdent.beqList as bs

/-- Structural boolean equality on lists of `TypeIdent`. -/
def TypeIdent.beqList : List TypeIdent → List TypeIdent → Bool
  | [], [] => true
  | a :: as, b :: bs => TypeIdent.beq a b && TypeIdent.beqList as bs
  | [], _ :: _ => false
  | _ :: _, [] => false
end

mutual
theorem TypeIdent.beq_iff : ∀ (a b : TypeIdent), TypeIdent.beq a b = true ↔ a = b
  | .mk n as, .mk m bs => by
      rw [TypeIdent.beq]
      simp only [Bool.and_eq_true, beq_iff_eq, TypeIdent.mk.injEq]
      rw [TypeIdent.beqList_iff as bs]

theorem TypeIdent.beqList_iff :
    ∀ (as bs : List TypeIdent), TypeIdent.beqList as bs = true ↔ as = bs
  | [], [] => by simp [TypeIdent.beqList]
  | [], _ :: _ => by simp [TypeIdent.beqList]
  | _ :: _, [] => by simp [TypeIdent.beqList]
  | a :: as, b :: bs => by
      rw [TypeIdent.beqList]
      simp only [Bool.and_eq_true, List.cons.injEq]
      rw [TypeIdent.beq_iff a b, TypeIdent.beqList_iff as bs]
end

theorem TypeIdent.beq_refl (a : TypeIdent) : TypeIdent.beq a a = true :=
  (TypeIdent.beq_iff a a).mpr rfl

instance : DecidableEq TypeIdent := fun a b =>
  decidable_of_iff (TypeIdent.beq a b = true) (TypeIdent.beq_iff a b)

/-- Modelled from the spec: the casing conventions used to derive wire names
(`Casing` lives in the `types` module, outside the sources at hand; §4.1
lists snake/camel/pascal/kebab plus the original spelling). -/
inductive Casing
| originalCase
| camelCase
| pascalCase
| snakeCase
| kebabCase
deriving DecidableEq

instance : Inhabited Casing := ⟨Casing.originalCase⟩

/-- Modelled from the spec: attributes attached to an enum variant (§3 lists
"attrs"; the one behavior specified is an explicit rename override). -/
structure VariantAttrs where
  rename : Option String := none
deriving DecidableEq

instance : Inhabited VariantAttrs := ⟨{}⟩

/-- Modelled from the spec: attributes attached to a struct field; as with
variants, the specified behavior is the explicit rename override. -/
structure FieldAttrs where
  rename : Option String := none
deriving DecidableEq

instance : Inhabited FieldAttrs := ⟨{}⟩

/-- Modelled from the spec: `StructOptions` (field casing and the per-target
native module override); the `types` module is outside the sources at hand.
The `native_modules` map is carried as an association list. -/
structure StructOptions where
  field_casing : Casing := Casing.originalCase
  native_modules : List (String × String) := []
deriving DecidableEq

instance : Inhabited StructOptions := ⟨{}⟩

/-- `EnumOptions` with the fields used by `serializable/mod.rs`
(variant casing, tag/content property names, the untagged flag and the
per-target native module overrides); the `BTreeMap` of native modules is
carried as an association list. -/
structure EnumOptions where
  variant_casing : Casing := Casing.originalCase
  content_prop_name : Option String := none
  tag_prop_name : Option String := none
  untagged : Bool := false
  native_modules : List (String × String) := []
deriving DecidableEq

instance : Inhabited EnumOptions := ⟨{}⟩

/-- A struct field: name, declared `TypeIdent`, doc lines and attrs, as
constructed for `FPGuestError` in `serializable/mod.rs`. -/
structure Field where
  name : String
  ty : TypeIdent
  doc_lines : List String
  attrs : FieldAttrs

/-- A struct shape: ident, ordered fields, doc lines and options, as
constructed for `FPGuestError` in `serializable/mod.rs`. -/
structure Struct where
  ident : TypeIdent
  fields : List Field
  doc_lines : List String
  options : StructOptions

mutual
/-- The `Type` IR.  The constructors `primitive`, `string`, `unit`, `tuple`,
`list`, `map`, `container`, `struct` and `enum` mirror the variants used by
`serializable/mod.rs`; the `set` constructor is modelled from the spec, which
lists `Set(container-name, element TypeIdent)` among the `Type` variants (§3).
Named `Ty` because `Type` is reserved in Lean. -/
inductive Ty
| primitive (name : String)
| string
| unit
| tuple (items : List TypeIdent)
| list (name : String) (elem : TypeIdent)
| set (name : String) (elem : TypeIdent)
| map (name : String) (key : TypeIdent) (value : TypeIdent)
| container (name : String) (ident : TypeIdent)
| struct (s : Struct)
| enum (e : Enum)

/-- An enum shape: ident, ordered variants, doc lines and options. -/
inductive Enum
| mk (ident : TypeIdent) (variants : List Variant) (doc_lines : List String)
    (options : EnumOptions)

/-- An enum variant: name, payload `Ty`, doc lines and attrs. -/
inductive Variant
| mk (name : String) (ty : Ty) (doc_lines : List String) (attrs : VariantAttrs)
end

/-- Discriminator for the `Set` variant of the `Type` IR. -/
def Ty.isSet : Ty → Bool
  | .set _ _ => true
  | _ => false

/-- Discriminator for the `List` variant of the `Type` IR. -/
def Ty.isList : Ty → Bool
  | .list _ _ => true
  | _ => false

/-- The accumulated type map, `TypeMap = BTreeMap<TypeIdent, Type>`, modelled
as an association list in insertion order: the claims at hand concern key
membership and stored values, not iteration order. -/
abbrev TypeMap := List (TypeIdent × Ty)

/-- Whether the map has an entry for key `k` (`BTreeMap::contains_key`). -/
def TypeMap.containsKey (m : TypeMap) (k : TypeIdent) : Bool :=
  List.any m (fun p => TypeIdent.beq p.1 k)

/-- Mirrors `types.entry(k).or_insert_with(v)`: a no-op when `k` is already
present, otherwise the new entry is added (the closure argument of
`or_insert_with` is only evaluated in that branch; values being pure here,
it is passed evaluated). -/
def TypeMap.entry_or_insert_with (m : TypeMap) (k : TypeIdent) (v : Ty) : TypeMap :=
  if m.containsKey k then m else m ++ [(k, v)]

/-- The value stored for key `k`, if any (`BTreeMap::get`). -/
def TypeMap.lookupKey (m : TypeMap) (k : TypeIdent) : Option Ty :=
  (List.find? (fun p => TypeIdent.beq p.1 k) m).map (fun p => p.2)

/-- How many entries carry key `k`; a well-formed map has at most one. -/
def TypeMap.countKey (m : TypeMap) (k : TypeIdent) : Nat :=
  List.countP (fun p => TypeIdent.beq p.1 k) m

/-- The types for which `serializable/mod.rs` implements `Serializable`,
as a closed universe: the blanket impls over `Box`, `BTreeMap`, `BTreeSet`,
`HashMap`, `HashSet`, `Option`, `Rc`, `Result`, `String`, `Vec` and
`FPGuestError`, plus — modelled from the spec — the primitive scalar impls
emitted by the `primitive_impls!()` macro, which lives outside the sources
at hand (spec §3 lists the primitive scalars; they use the default
`collect_types`). -/
inductive SerType
| box (t : SerType)
| btreeMap (k : SerType) (v : SerType)
| btreeSet (t : SerType)
| hashMap (k : SerType) (v : SerType)
| hashSet (t : SerType)
| option (t : SerType)
| rc (t : SerType)
| result (t : SerType) (e : SerType)
| string
| vec (t : SerType)
| fpGuestError
| prim (name : String)
deriving DecidableEq

/-- `Serializable::ident()` for each impl.  The generic impls construct
their `generic_args` from the fixed placeholders `TypeIdent::from("T")`
(resp. `"K"`, `"V"`, `"E"`), exactly as written in `serializable/mod.rs`. -/
def SerType.ident : SerType → TypeIdent
  | .box _ => TypeIdent.mk ("Box") [TypeIdent.fromName ("T")]
  | .btreeMap _ _ =>
      TypeIdent.mk ("BTreeMap") [TypeIdent.fromName ("K"), TypeIdent.fromName ("V")]
  | .btreeSet _ => TypeIdent.mk ("BTreeSet") [TypeIdent.fromName ("T")]
  | .hashMap _ _ =>
      TypeIdent.mk ("HashMap") [TypeIdent.fromName ("K"), TypeIdent.fromName ("V")]
  | .hashSet _ => TypeIdent.mk ("HashSet") [TypeIdent.fromName ("T")]
  | .option _ => TypeIdent.mk ("Option") [TypeIdent.fromName ("T")]
  | .rc _ => TypeIdent.mk ("Rc") [TypeIdent.fromName ("T")]
  | .result _ _ =>
      TypeIdent.mk ("Result") [TypeIdent.fromName ("T"), TypeIdent.fromName ("E")]
  | .string => TypeIdent.fromName ("String")
  | .vec _ => TypeIdent.mk ("Vec") [TypeIdent.fromName ("T")]
  | .fpGuestError => TypeIdent.mk ("FPGuestError") []
  | .prim name => TypeIdent.fromName name

/-- `Serializable::ty()` for each impl, transcribed from
`serializable/mod.rs`.  In particular `BTreeSet` and `HashSet` construct
`Type::List(..)`, and `Result` and `FPGuestError` construct their enum
shapes literally. -/
def SerType.ty : SerType → Ty
  | .box _ => Ty.container ("Box") (TypeIdent.fromName ("T"))
  | .btreeMap _ _ =>
      Ty.map ("BTreeMap") (TypeIdent.fromName ("K")) (TypeIdent.fromName ("V"))
  | .btreeSet _ => Ty.list ("BTreeSet") (TypeIdent.fromName ("T"))
  | .hashMap _ _ =>
      Ty.map ("HashMap") (TypeIdent.fromName ("K")) (TypeIdent.fromName ("V"))
  | .hashSet _ => Ty.list ("HashSet") (TypeIdent.fromName ("T"))
  | .option _ => Ty.container ("Option") (TypeIdent.fromName ("T"))
  | .rc _ => Ty.container ("Rc") (TypeIdent.fromName ("T"))
  | .result _ _ =>
      Ty.enum (Enum.mk
        (TypeIdent.mk ("Result") [TypeIdent.fromName ("T"), TypeIdent.fromName ("E")])
        [Variant.mk ("Ok") (Ty.tuple [TypeIdent.fromName ("T")])
          [" Represents a succesful result."] {},
         Variant.mk ("Err") (Ty.tuple [TypeIdent.fromName ("E")])
          [" Represents an error."] {}]
        [" A result that can be either successful (`Ok)` or represent an error (`Err`)."]
        {})
  | .string => Ty.string
  | .vec _ => Ty.list ("Vec") (TypeIdent.fromName ("T"))
  | .fpGuestError =>
      Ty.enum (Enum.mk
        (TypeIdent.mk ("FPGuestError") [])
        [Variant.mk ("SerdeError")
          (Ty.struct
            { ident := TypeIdent.fromName ("SerdeError")
              fields :=
                [{ name := ("path")
                   ty := TypeIdent.fromName ("String")
                   doc_lines := ["Path to the failed field that failed to serde"]
                   attrs := {} },
                 { name := ("message")
                   ty := TypeIdent.fromName ("String")
                   doc_lines := []
                   attrs := {} }]
              doc_lines := []
              options := { field_casing := Casing.snakeCase } })
          ["Deserialization of data failed, possible mismatch between guest and runtime protocol version"]
          {},
         Variant.mk ("InvalidFatPtr") Ty.unit
          ["Received an invalid `FatPtr`"]
          {}]
        []
        { variant_casing := Casing.snakeCase
          content_prop_name := none
          tag_prop_name := some ("type")
          untagged := false
          native_modules :=
            [(("rust_wasmer_runtime"), ("fp_bindgen_support::common::errors")),
             (("rust_plugin"), ("fp_bindgen_support::common::errors"))] })
  | .prim name => Ty.primitive name

/-- `Serializable::is_primitive()`: `false` by default; the primitive impls
(modelled from the spec) override it to `true`. -/
def SerType.is_primitive : SerType → Bool
  | .prim _ => true
  | _ => false

/-- `Serializable::collect_types(types)` for each impl, transcribed from
`serializable/mod.rs`: every impl first runs
`types.entry(Self::ident()).or_insert_with(Self::ty)` and then recurses into
its type parameters; `String`, `FPGuestError` and the primitives use the
default implementation, which only inserts. -/
def SerType.collect_types : SerType → TypeMap → TypeMap
  | .box a, types => a.collect_types (types.entry_or_insert_with (SerType.box a).ident (SerType.box a).ty)
  | .btreeMap k v, types =>
      v.collect_types (k.collect_types
        (types.entry_or_insert_with (SerType.btreeMap k v).ident (SerType.btreeMap k v).ty))
  | .btreeSet a, types =>
      a.collect_types (types.entry_or_insert_with (SerType.btreeSet a).ident (SerType.btreeSet a).ty)
  | .hashMap k v, types =>
      v.collect_types (k.collect_types
        (types.entry_or_insert_with (SerType.hashMap k v).ident (SerType.hashMap k v).ty))
  | .hashSet a, types =>
      a.collect_types (types.entry_or_insert_with (SerType.hashSet a).ident (SerType.hashSet a).ty)
  | .option a, types =>
      a.collect_types (types.entry_or_insert_with (SerType.option a).ident (SerType.option a).ty)
  | .rc a, types =>
      a.collect_types (types.entry_or_insert_with (SerType.rc a).ident (SerType.rc a).ty)
  | .result t e, types =>
      e.collect_types (t.collect_types
        (types.entry_or_insert_with (SerType.result t e).ident (SerType.result t e).ty))
  | .string, types => types.entry_or_insert_with SerType.string.ident SerType.string.ty
  | .vec a, types =>
      a.collect_types (types.entry_or_insert_with (SerType.vec a).ident (SerType.vec a).ty)
  | .fpGuestError, types =>
      types.entry_or_insert_with SerType.fpGuestError.ident SerType.fpGuestError.ty
  | .prim name, types =>
      types.entry_or_insert_with (SerType.prim name).ident (SerType.prim name).ty

/-- The idents that `collect_types` registers: the type its own ident first,
then, recursively, those of its type parameters. -/
def SerType.reqKeys : SerType → List TypeIdent
  | .box a => (SerType.box a).ident :: a.reqKeys
  | .btreeMap k v => (SerType.btreeMap k v).ident :: (k.reqKeys ++ v.reqKeys)
  | .btreeSet a => (SerType.btreeSet a).ident :: a.reqKeys
  | .hashMap k v => (SerType.hashMap k v).ident :: (k.reqKeys ++ v.reqKeys)
  | .hashSet a => (SerType.hashSet a).ident :: a.reqKeys
  | .option a => (SerType.option a).ident :: a.reqKeys
  | .rc a => (SerType.rc a).ident :: a.reqKeys
  | .result t e => (SerType.result t e).ident :: (t.reqKeys ++ e.reqKeys)
  | .string => [SerType.string.ident]
  | .vec a => (SerType.vec a).ident :: a.reqKeys
  | .fpGuestError => [SerType.fpGuestError.ident]
  | .prim name => [(SerType.prim name).ident]

theorem TypeMap.containsKey_append (m ext : TypeMap) (k : TypeIdent) :
    TypeMap.containsKey (m ++ ext) k = (m.containsKey k || ext.containsKey k) :=
  List.any_append

theorem TypeMap.containsKey_insert_self (m : TypeMap) (k : TypeIdent) (v : Ty) :
    (m.entry_or_insert_with k v).containsKey k = true := by
  unfold TypeMap.entry_or_insert_with
  by_cases h : m.containsKey k = true
  · simp [h]
  · simp only [h]
    simp only [Bool.false_eq_true, if_neg, ite_false, TypeMap.containsKey_append]
    simp [TypeMap.containsKey, TypeIdent.beq_refl]

theorem TypeMap.containsKey_insert_mono (m : TypeMap) (k : TypeIdent) (v : Ty)
    (j : TypeIdent) (h : m.containsKey j = true) :
    (m.entry_or_insert_with k v).containsKey j = true := by
  unfold TypeMap.entry_or_insert_with
  by_cases hc : m.containsKey k = true
  · simpa [hc]
  · simp only [hc]
    simp [TypeMap.containsKey_append, h]

theorem TypeMap.insert_of_containsKey (m : TypeMap) (k : TypeIdent) (v : Ty)
    (h : m.containsKey k = true) : m.entry_or_insert_with k v = m := by
  simp [TypeMap.entry_or_insert_with, h]

theorem SerType.containsKey_collect_mono (t : SerType) :
    ∀ (m : TypeMap) (j : TypeIdent), m.containsKey j = true →
      (t.collect_types m).containsKey j = true := by
  induction t with
  | box a ih =>
      intro m j h
      exact ih _ _ (TypeMap.containsKey_insert_mono _ _ _ _ h)
  | btreeMap k v ihk ihv =>
      intro m j h
      exact ihv _ _ (ihk _ _ (TypeMap.containsKey_insert_mono _ _ _ _ h))
  | btreeSet a ih =>
      intro m j h
      exact ih _ _ (TypeMap.containsKey_insert_mono _ _ _ _ h)
  | hashMap k v ihk ihv =>
      intro m j h
      exact ihv _ _ (ihk _ _ (TypeMap.containsKey_insert_mono _ _ _ _ h))
  | hashSet a ih =>
      intro m j h
      exact ih _ _ (TypeMap.containsKey_insert_mono _ _ _ _ h)
  | option a ih =>
      intro m j h
      exact ih _ _ (TypeMap.containsKey_insert_mono _ _ _ _ h)
  | rc a ih =>
      intro m j h
      exact ih _ _ (TypeMap.containsKey_insert_mono _ _ _ _ h)
  | result t e iht ihe =>
      intro m j h
      exact ihe _ _ (iht _ _ (TypeMap.containsKey_insert_mono _ _ _ _ h))
  | string =>
      intro m j h
      exact TypeMap.containsKey_insert_mono _ _ _ _ h
  | vec a ih =>
      intro m j h
      exact ih _ _ (TypeMap.containsKey_insert_mono _ _ _ _ h)
  | fpGuestError =>
      intro m j h
      exact TypeMap.containsKey_insert_mono _ _ _ _ h
  | prim name =>
      intro m j h
      exact TypeMap.containsKey_insert_mono _ _ _ _ h

theorem SerType.containsKey_collect_reqKeys (t : SerType) :
    ∀ (m : TypeMap) (j : TypeIdent), j ∈ t.reqKeys →
      (t.collect_types m).containsKey j = true := by
  induction t with
  | box a ih =>
      intro m j hj
      simp only [SerType.collect_types]
      rcases List.mem_cons.mp hj with h | h
      · subst h
        exact SerType.containsKey_collect_mono _ _ _ (TypeMap.containsKey_insert_self _ _ _)
      · exact ih _ _ h
  | btreeMap k v ihk ihv =>
      intro m j hj
      simp only [SerType.collect_types]
      rcases List.mem_cons.mp hj with h | h
      · subst h
        exact SerType.containsKey_collect_mono _ _ _
          (SerType.containsKey_collect_mono _ _ _ (TypeMap.containsKey_insert_self _ _ _))
      · rcases List.mem_append.mp h with h | h
        · exact SerType.containsKey_collect_mono _ _ _ (ihk _ _ h)
        · exact ihv _ _ h
  | btreeSet a ih =>
      intro m j hj
      simp only [SerType.collect_types]
      rcases List.mem_cons.mp hj with h | h
      · subst h
        exact SerType.containsKey_collect_mono _ _ _ (TypeMap.containsKey_insert_self _ _ _)
      · exact ih _ _ h
  | hashMap k v ihk ihv =>
      intro m j hj
      simp only [SerType.collect_types]
      rcases List.mem_cons.mp hj with h | h
      · subst h
        exact SerType.containsKey_collect_mono _ _ _
          (SerType.containsKey_collect_mono _ _ _ (TypeMap.containsKey_insert_self _ _ _))
      · rcases List.mem_append.mp h with h | h
        · exact SerType.containsKey_collect_mono _ _ _ (ihk _ _ h)
        · exact ihv _ _ h
  | hashSet a ih =>
      intro m j hj
      simp only [SerType.collect_types]
      rcases List.mem_cons.mp hj with h | h
      · subst h
        exact SerType.containsKey_collect_mono _ _ _ (TypeMap.containsKey_insert_self _ _ _)
      · exact ih _ _ h
  | option a ih =>
      intro m j hj
      simp only [SerType.collect_types]
      rcases List.mem_cons.mp hj with h | h
      · subst h
        exact SerType.containsKey_collect_mono _ _ _ (TypeMap.containsKey_insert_self _ _ _)
      · exact ih _ _ h
  | rc a ih =>
      intro m j hj
      simp only [SerType.collect_types]
      rcases List.mem_cons.mp hj with h | h
      · subst h
        exact SerType.containsKey_collect_mono _ _ _ (TypeMap.containsKey_insert_self _ _ _)
      · exact ih _ _ h
  | result t e iht ihe =>
      intro m j hj
      simp only [SerType.collect_types]
      rcases List.mem_cons.mp hj with h | h
      · subst h
        exact SerType.containsKey_collect_mono _ _ _
          (SerType.containsKey_collect_mono _ _ _ (TypeMap.containsKey_insert_self _ _ _))
      · rcases List.mem_append.mp h with h | h
        · exact SerType.containsKey_collect_mono _ _ _ (iht _ _ h)
        · exact ihe _ _ h
  | string =>
      intro m j hj
      simp only [SerType.collect_types]
      rcases List.mem_cons.mp hj with h | h
      · subst h
        exact TypeMap.containsKey_insert_self _ _ _
      · cases h
  | vec a ih =>
      intro m j hj
      simp only [SerType.collect_types]
      rcases List.mem_cons.mp hj with h | h
      · subst h
        exact SerType.containsKey_collect_mono _ _ _ (TypeMap.containsKey_insert_self _ _ _)
      · exact ih _ _ h
  | fpGuestError =>
      intro m j hj
      simp only [SerType.collect_types]
      rcases List.mem_cons.mp hj with h | h
      · subst h
        exact TypeMap.containsKey_insert_self _ _ _
      · cases h
  | prim name =>
      intro m j hj
      simp only [SerType.collect_types]
      rcases List.mem_cons.mp hj with h | h
      · subst h
        exact TypeMap.containsKey_insert_self _ _ _
      · cases h

theorem SerType.collect_of_reqKeys_present (t : SerType) :
    ∀ (m : TypeMap), (∀ j ∈ t.reqKeys, m.containsKey j = true) →
      t.collect_types m = m := by
  induction t with
  | box a ih =>
      intro m h
      have hid : m.containsKey (SerType.box a).ident = true :=
        h _ (List.mem_cons_self _ _)
      simp only [SerType.collect_types, TypeMap.insert_of_containsKey _ _ _ hid]
      exact ih _ (fun j hj => h j (List.mem_cons_of_mem _ hj))
  | btreeMap k v ihk ihv =>
      intro m h
      have hid : m.containsKey (SerType.btreeMap k v).ident = true :=
        h _ (List.mem_cons_self _ _)
      simp only [SerType.collect_types, TypeMap.insert_of_containsKey _ _ _ hid]
      rw [ihk _ (fun j hj => h j (List.mem_cons_of_mem _ (List.mem_append_left _ hj)))]
      exact ihv _ (fun j hj => h j (List.mem_cons_of_mem _ (List.mem_append_right _ hj)))
  | btreeSet a ih =>
      intro m h
      have hid : m.containsKey (SerType.btreeSet a).ident = true :=
        h _ (List.mem_cons_self _ _)
      simp only [SerType.collect_types, TypeMap.insert_of_containsKey _ _ _ hid]
      exact ih _ (fun j hj => h j (List.mem_cons_of_mem _ hj))
  | hashMap k v ihk ihv =>
      intro m h
      have hid : m.containsKey (SerType.hashMap k v).ident = true :=
        h _ (List.mem_cons_self _ _)
      simp only [SerType.collect_types, TypeMap.insert_of_containsKey _ _ _ hid]
      rw [ihk _ (fun j hj => h j (List.mem_cons_of_mem _ (List.mem_append_left _ hj)))]
      exact ihv _ (fun j hj => h j (List.mem_cons_of_mem _ (List.mem_append_right _ hj)))
  | hashSet a ih =>
      intro m h
      have hid : m.containsKey (SerType.hashSet a).ident = true :=
        h _ (List.mem_cons_self _ _)
      simp only [SerType.collect_types, TypeMap.insert_of_containsKey _ _ _ hid]
      exact ih _ (fun j hj => h j (List.mem_cons_of_mem _ hj))
  | option a ih =>
      intro m h
      have hid : m.containsKey (SerType.option a).ident = true :=
        h _ (List.mem_cons_self _ _)
      simp only [SerType.collect_types, TypeMap.insert_of_containsKey _ _ _ hid]
      exact ih _ (fun j hj => h j (List.mem_cons_of_mem _ hj))
  | rc a ih =>
      intro m h
      have hid : m.containsKey (SerType.rc a).ident = true :=
        h _ (List.mem_cons_self _ _)
      simp only [SerType.collect_types, TypeMap.insert_of_containsKey _ _ _ hid]
      exact ih _ (fun j hj => h j (List.mem_cons_of_mem _ hj))
  | result t e iht ihe =>
      intro m h
      have hid : m.containsKey (SerType.result t e).ident = true :=
        h _ (List.mem_cons_self _ _)
      simp only [SerType.collect_types, TypeMap.insert_of_containsKey _ _ _ hid]
      rw [iht _ (fun j hj => h j (List.mem_cons_of_mem _ (List.mem_append_left _ hj)))]
      exact ihe _ (fun j hj => h j (List.mem_cons_of_mem _ (List.mem_append_right _ hj)))
  | string =>
      intro m h
      have hid : m.containsKey SerType.string.ident = true :=
        h _ (List.mem_cons_self _ _)
      simp only [SerType.collect_types, TypeMap.insert_of_containsKey _ _ _ hid]
  | vec a ih =>
      intro m h
      have hid : m.containsKey (SerType.vec a).ident = true :=
        h _ (List.mem_cons_self _ _)
      simp only [SerType.collect_types, TypeMap.insert_of_containsKey _ _ _ hid]
      exact ih _ (fun j hj => h j (List.mem_cons_of_mem _ hj))
  | fpGuestError =>
      intro m h
      have hid : m.containsKey SerType.fpGuestError.ident = true :=
        h _ (List.mem_cons_self _ _)
      simp only [SerType.collect_types, TypeMap.insert_of_containsKey _ _ _ hid]
  | prim name =>
      intro m h
      have hid : m.containsKey (SerType.prim name).ident = true :=
        h _ (List.mem_cons_self _ _)
      simp only [SerType.collect_types, TypeMap.insert_of_containsKey _ _ _ hid]

theorem SerType.ident_mem_reqKeys (t : SerType) : t.ident ∈ t.reqKeys := by
  cases t <;> simp [SerType.reqKeys]

theorem TypeMap.insert_append (m : TypeMap) (k : TypeIdent) (v : Ty) :
    ∃ ext, m.entry_or_insert_with k v = m ++ ext := by
  unfold TypeMap.entry_or_insert_with
  by_cases h : m.containsKey k = true
  · exact ⟨[], by simp [h]⟩
  · exact ⟨[(k, v)], by simp [h]⟩

theorem SerType.collect_append (t : SerType) :
    ∀ m : TypeMap, ∃ ext, t.collect_types m = m ++ ext := by
  induction t with
  | box a ih =>
      intro m
      simp only [SerType.collect_types]
      obtain ⟨e0, h0⟩ := TypeMap.insert_append m (SerType.box a).ident (SerType.box a).ty
      obtain ⟨e1, h1⟩ := ih (m.entry_or_insert_with (SerType.box a).ident (SerType.box a).ty)
      exact ⟨e0 ++ e1, by rw [h1, h0, List.append_assoc]⟩
  | btreeMap k v ihk ihv =>
      intro m
      simp only [SerType.collect_types]
      obtain ⟨e0, h0⟩ :=
        TypeMap.insert_append m (SerType.btreeMap k v).ident (SerType.btreeMap k v).ty
      obtain ⟨e1, h1⟩ := ihk (m.entry_or_insert_with (SerType.btreeMap k v).ident (SerType.btreeMap k v).ty)
      obtain ⟨e2, h2⟩ := ihv (k.collect_types (m.entry_or_insert_with (SerType.btreeMap k v).ident (SerType.btreeMap k v).ty))
      exact ⟨e0 ++ e1 ++ e2, by rw [h2, h1, h0]; simp [List.append_assoc]⟩
  | btreeSet a ih =>
      intro m
      simp only [SerType.collect_types]
      obtain ⟨e0, h0⟩ := TypeMap.insert_append m (SerType.btreeSet a).ident (SerType.btreeSet a).ty
      obtain ⟨e1, h1⟩ := ih (m.entry_or_insert_with (SerType.btreeSet a).ident (SerType.btreeSet a).ty)
      exact ⟨e0 ++ e1, by rw [h1, h0, List.append_assoc]⟩
  | hashMap k v ihk ihv =>
      intro m
      simp only [SerType.collect_types]
      obtain ⟨e0, h0⟩ :=
        TypeMap.insert_append m (SerType.hashMap k v).ident (SerType.hashMap k v).ty
      obtain ⟨e1, h1⟩ := ihk (m.entry_or_insert_with (SerType.hashMap k v).ident (SerType.hashMap k v).ty)
      obtain ⟨e2, h2⟩ := ihv (k.collect_types (m.entry_or_insert_with (SerType.hashMap k v).ident (SerType.hashMap k v).ty))
      exact ⟨e0 ++ e1 ++ e2, by rw [h2, h1, h0]; simp [List.append_assoc]⟩
  | hashSet a ih =>
      intro m
      simp only [SerType.collect_types]
      obtain ⟨e0, h0⟩ := TypeMap.insert_append m (SerType.hashSet a).ident (SerType.hashSet a).ty
      obtain ⟨e1, h1⟩ := ih (m.entry_or_insert_with (SerType.hashSet a).ident (SerType.hashSet a).ty)
      exact ⟨e0 ++ e1, by rw [h1, h0, List.append_assoc]⟩
  | option a ih =>
      intro m
      simp only [SerType.collect_types]
      obtain ⟨e0, h0⟩ := TypeMap.insert_append m (SerType.option a).ident (SerType.option a).ty
      obtain ⟨e1, h1⟩ := ih (m.entry_or_insert_with (SerType.option a).ident (SerType.option a).ty)
      exact ⟨e0 ++ e1, by rw [h1, h0, List.append_assoc]⟩
  | rc a ih =>
      intro m
      simp only [SerType.collect_types]
      obtain ⟨e0, h0⟩ := TypeMap.insert_append m (SerType.rc a).ident (SerType.rc a).ty
      obtain ⟨e1, h1⟩ := ih (m.entry_or_insert_with (SerType.rc a).ident (SerType.rc a).ty)
      exact ⟨e0 ++ e1, by rw [h1, h0, List.append_assoc]⟩
  | result t e iht ihe =>
      intro m
      simp only [SerType.collect_types]
      obtain ⟨e0, h0⟩ :=
        TypeMap.insert_append m (SerType.result t e).ident (SerType.result t e).ty
      obtain ⟨e1, h1⟩ := iht (m.entry_or_insert_with (SerType.result t e).ident (SerType.result t e).ty)
      obtain ⟨e2, h2⟩ := ihe (t.collect_types (m.entry_or_insert_with (SerType.result t e).ident (SerType.result t e).ty))
      exact ⟨e0 ++ e1 ++ e2, by rw [h2, h1, h0]; simp [List.append_assoc]⟩
  | string =>
      intro m
      simp only [SerType.collect_types]
      exact TypeMap.insert_append m SerType.string.ident SerType.string.ty
  | vec a ih =>
      intro m
      simp only [SerType.collect_types]
      obtain ⟨e0, h0⟩ := TypeMap.insert_append m (SerType.vec a).ident (SerType.vec a).ty
      obtain ⟨e1, h1⟩ := ih (m.entry_or_insert_with (SerType.vec a).ident (SerType.vec a).ty)
      exact ⟨e0 ++ e1, by rw [h1, h0, List.append_assoc]⟩
  | fpGuestError =>
      intro m
      simp only [SerType.collect_types]
      exact TypeMap.insert_append m SerType.fpGuestError.ident SerType.fpGuestError.ty
  | prim name =>
      intro m
      simp only [SerType.collect_types]
      exact TypeMap.insert_append m (SerType.prim name).ident (SerType.prim name).ty

theorem TypeMap.lookupKey_append_left (m ext : TypeMap) (k : TypeIdent) (v : Ty)
    (h : m.lookupKey k = some v) : (m ++ ext).lookupKey k = some v := by
  induction m with
  | nil => simp [TypeMap.lookupKey] at h
  | cons p ps ih =>
      unfold TypeMap.lookupKey at h ⊢
      rw [List.cons_append, List.find?]
      rw [List.find?] at h
      by_cases hb : TypeIdent.beq p.1 k = true
      · simpa [hb] using h
      · simp only [Bool.not_eq_true] at hb
        rw [hb] at h ⊢
        exact ih h

theorem TypeMap.countKey_eq_zero_of_not_contains (m : TypeMap) (k : TypeIdent)
    (h : m.containsKey k = false) : m.countKey k = 0 := by
  unfold TypeMap.containsKey at h
  unfold TypeMap.countKey
  rw [List.countP_eq_zero]
  intro a ha
  have := List.any_eq_false.mp h a ha
  simpa using this

theorem TypeMap.one_le_countKey (m : TypeMap) (k : TypeIdent)
    (h : m.containsKey k = true) : 1 ≤ m.countKey k := by
  unfold TypeMap.containsKey at h
  obtain ⟨a, ha, hpa⟩ := List.any_eq_true.mp h
  have : 0 < m.countKey k := by
    unfold TypeMap.countKey
    rw [List.countP_pos_iff]
    exact ⟨a, ha, hpa⟩
  omega

theorem TypeMap.countKey_insert_le_one (m : TypeMap) (j k : TypeIdent) (v : Ty)
    (h : m.countKey k ≤ 1) : (m.entry_or_insert_with j v).countKey k ≤ 1 := by
  unfold TypeMap.entry_or_insert_with
  by_cases hc : m.containsKey j = true
  · simpa [hc]
  · simp only [Bool.not_eq_true] at hc
    rw [hc]
    simp only [Bool.false_eq_true, ite_false]
    unfold TypeMap.countKey at h ⊢
    rw [List.countP_append]
    by_cases hb : TypeIdent.beq j k = true
    · have hjk : j = k := (TypeIdent.beq_iff j k).mp hb
      subst hjk
      have h0 : m.countKey j = 0 := TypeMap.countKey_eq_zero_of_not_contains m j hc
      unfold TypeMap.countKey at h0
      simp [h0, List.countP_cons, hb]
    · simp only [Bool.not_eq_true] at hb
      simpa [List.countP_cons, hb] using h

theorem SerType.countKey_collect_le_one (t : SerType) :
    ∀ (m : TypeMap) (k : TypeIdent), m.countKey k ≤ 1 →
      (t.collect_types m).countKey k ≤ 1 := by
  induction t with
  | box a ih =>
      intro m k h
      exact ih _ _ (TypeMap.countKey_insert_le_one _ _ _ _ h)
  | btreeMap p q ihp ihq =>
      intro m k h
      exact ihq _ _ (ihp _ _ (TypeMap.countKey_insert_le_one _ _ _ _ h))
  | btreeSet a ih =>
      intro m k h
      exact ih _ _ (TypeMap.countKey_insert_le_one _ _ _ _ h)
  | hashMap p q ihp ihq =>
      intro m k h
      exact ihq _ _ (ihp _ _ (TypeMap.countKey_insert_le_one _ _ _ _ h))
  | hashSet a ih =>
      intro m k h
      exact ih _ _ (TypeMap.countKey_insert_le_one _ _ _ _ h)
  | option a ih =>
      intro m k h
      exact ih _ _ (TypeMap.countKey_insert_le_one _ _ _ _ h)
  | rc a ih =>
      intro m k h
      exact ih _ _ (TypeMap.countKey_insert_le_one _ _ _ _ h)
  | result p q ihp ihq =>
      intro m k h
      exact ihq _ _ (ihp _ _ (TypeMap.countKey_insert_le_one _ _ _ _ h))
  | string =>
      intro m k h
      exact TypeMap.countKey_insert_le_one _ _ _ _ h
  | vec a ih =>
      intro m k h
      exact ih _ _ (TypeMap.countKey_insert_le_one _ _ _ _ h)
  | fpGuestError =>
      intro m k h
      exact TypeMap.countKey_insert_le_one _ _ _ _ h
  | prim name =>
      intro m k h
      exact TypeMap.countKey_insert_le_one _ _ _ _ h

/-- C1: for every `Serializable` type `T` and every type map `m`, calling
`T::collect_types` on `m` twice yields the same map as calling it once —
after the first insertion of the ident a second registration is a no-op —
and registering the same type twice starting from the empty map yields
exactly one entry under `T::ident()`. -/
theorem C1_collect_types_idempotent (t : SerType) (m : TypeMap) :
    t.collect_types (t.collect_types m) = t.collect_types m ∧
    (t.collect_types (t.collect_types ([] : TypeMap))).countKey t.ident = 1 := by
  have hidem : ∀ m0 : TypeMap, t.collect_types (t.collect_types m0) = t.collect_types m0 :=
    fun m0 =>
      SerType.collect_of_reqKeys_present t _
        (fun j hj => SerType.containsKey_collect_reqKeys t m0 j hj)
  refine ⟨hidem m, ?_⟩
  rw [hidem []]
  have hmem : (t.collect_types ([] : TypeMap)).containsKey t.ident = true :=
    SerType.containsKey_collect_reqKeys t [] t.ident (SerType.ident_mem_reqKeys t)
  have hle : (t.collect_types ([] : TypeMap)).countKey t.ident ≤ 1 :=
    SerType.countKey_collect_le_one t [] t.ident (by simp [TypeMap.countKey])
  have hge := TypeMap.one_le_countKey _ _ hmem
  omega

/-- C2: first registration wins — `collect_types` never overwrites an entry
already in the map: the result extends the input map, so every entry present
before the call (in particular one stored under `T::ident()`) is still
present with the same value afterwards; the map only grows. -/
theorem C2_collect_types_first_registration_wins (t : SerType) (m : TypeMap) :
    (∃ ext, t.collect_types m = m ++ ext) ∧
    (∀ (k : TypeIdent) (v : Ty), m.lookupKey k = some v →
      (t.collect_types m).lookupKey k = some v) := by
  refine ⟨SerType.collect_append t m, ?_⟩
  intro k v hv
  obtain ⟨ext, hext⟩ := SerType.collect_append t m
  rw [hext]
  exact TypeMap.lookupKey_append_left m ext k v hv

/-- Witness for C2 at a concrete input: a map already holding the entry for
`String::ident()` keeps that exact entry across
`<Box<String>>::collect_types`. -/
theorem C2_collect_types_first_registration_wins_witness :
    (TypeMap.lookupKey ([(SerType.string.ident, Ty.string)]) SerType.string.ident
        = some Ty.string) ∧
    (TypeMap.lookupKey
        ((SerType.box SerType.string).collect_types ([(SerType.string.ident, Ty.string)]))
        SerType.string.ident
        = some Ty.string) :=
  ⟨rfl,
   (C2_collect_types_first_registration_wins (SerType.box SerType.string)
      [(SerType.string.ident, Ty.string)]).2 SerType.string.ident Ty.string rfl⟩

/-- Counterexample to C3 as stated: in `serializable/mod.rs` the generic
container impls build `ident()` from the fixed placeholder
`TypeIdent::from("T")`, so the two distinct instantiations `Vec<u64>` and
`Vec<String>` produce EQUAL `TypeIdent`s, not unequal ones. -/
theorem C3_counterexample :
    SerType.ident (SerType.vec (SerType.prim ("u64")))
        = SerType.ident (SerType.vec SerType.string) ∧
    SerType.vec (SerType.prim ("u64")) ≠ SerType.vec SerType.string :=
  ⟨rfl, by decide⟩

/-- C3 (amended): for every built-in generic container type, `ident()` embeds
the fixed generic-parameter placeholders (`"T"`, `"K"`, `"V"`, `"E"`), not the
concrete instantiation arguments, so any two instantiations of the same
container declaration produce the same `TypeIdent` and share a single entry
in the type map. -/
theorem C3_generic_ident_uses_placeholder (a b : SerType) :
    SerType.ident (SerType.box a) = SerType.ident (SerType.box b) ∧
    SerType.ident (SerType.btreeSet a) = SerType.ident (SerType.btreeSet b) ∧
    SerType.ident (SerType.hashSet a) = SerType.ident (SerType.hashSet b) ∧
    SerType.ident (SerType.option a) = SerType.ident (SerType.option b) ∧
    SerType.ident (SerType.rc a) = SerType.ident (SerType.rc b) ∧
    SerType.ident (SerType.vec a) = SerType.ident (SerType.vec b) ∧
    (∀ c d, SerType.ident (SerType.btreeMap a b) = SerType.ident (SerType.btreeMap c d)) ∧
    (∀ c d, SerType.ident (SerType.hashMap a b) = SerType.ident (SerType.hashMap c d)) ∧
    (∀ c d, SerType.ident (SerType.result a b) = SerType.ident (SerType.result c d)) ∧
    ((SerType.vec a).collect_types
        ((SerType.vec b).collect_types ([] : TypeMap))).countKey (SerType.vec a).ident = 1 := by
  refine ⟨rfl, rfl, rfl, rfl, rfl, rfl, fun c d => rfl, fun c d => rfl, fun c d => rfl, ?_⟩
  have hmem : ((SerType.vec b).collect_types ([] : TypeMap)).containsKey
      (SerType.vec b).ident = true :=
    SerType.containsKey_collect_reqKeys (SerType.vec b) [] _
      (SerType.ident_mem_reqKeys (SerType.vec b))
  have hmem2 : ((SerType.vec a).collect_types
      ((SerType.vec b).collect_types ([] : TypeMap))).containsKey (SerType.vec a).ident = true :=
    SerType.containsKey_collect_mono (SerType.vec a) _ _ hmem
  have hle : ((SerType.vec a).collect_types
      ((SerType.vec b).collect_types ([] : TypeMap))).countKey (SerType.vec a).ident ≤ 1 :=
    SerType.countKey_collect_le_one (SerType.vec a) _ _
      (SerType.countKey_collect_le_one (SerType.vec b) [] _ (by simp [TypeMap.countKey]))
  have hge := TypeMap.one_le_countKey _ _ hmem2
  omega

/-- Counterexample to C4 as stated: `<BTreeSet<u64>>::ty()` in
`serializable/mod.rs` is not the `Set` variant of the `Type` IR — it is
literally `Type::List("BTreeSet", TypeIdent::from("T"))`. -/
theorem C4_counterexample :
    Ty.isSet (SerType.ty (SerType.btreeSet (SerType.prim ("u64")))) = false ∧
    SerType.ty (SerType.btreeSet (SerType.prim ("u64")))
        = Ty.list ("BTreeSet") (TypeIdent.fromName ("T")) :=
  ⟨rfl, rfl⟩

/-- C4 (amended): for every set container type (`BTreeSet<T>`, `HashSet<T>`),
the hard-coded `Type` shape returned by `ty()` is the `List` variant of the
`Type` IR — the same variant used for sequence containers — carrying the
container name and the element `TypeIdent` placeholder. -/
theorem C4_set_containers_use_list_variant (t : SerType) :
    SerType.ty (SerType.btreeSet t) = Ty.list ("BTreeSet") (TypeIdent.fromName ("T")) ∧
    SerType.ty (SerType.hashSet t) = Ty.list ("HashSet") (TypeIdent.fromName ("T")) ∧
    Ty.isList (SerType.ty (SerType.btreeSet t)) = true ∧
    Ty.isList (SerType.ty (SerType.hashSet t)) = true :=
  ⟨rfl, rfl, rfl, rfl⟩

/-- Type expressions for the termination analysis of the resolver walk:
primitives, `String`, the `Vec` container, and references to user-declared
structs (through which recursive type definitions arise, e.g. a struct
containing a `Vec` of itself). -/
inductive TExpr
| prim (name : String)
| str
| vec (t : TExpr)
| named (n : String)
deriving DecidableEq

/-- Declarations of user structs: name, and the named fields with their
declared type expressions.  A declaration may refer back to itself. -/
abbrev DeclEnv := List (String × List (String × TExpr))

/-- First declaration with the given name, if any. -/
def lookupDecl : DeclEnv → String → Option (List (String × TExpr))
  | [], _ => none
  | (n, fs) :: rest, target => if n == target then some fs else lookupDecl rest target

/-- `ident()` of a type expression; as in `serializable/mod.rs`, the `Vec`
impl uses the placeholder argument `TypeIdent::from("T")`. -/
def TExpr.identOf : TExpr → TypeIdent
  | .prim s => TypeIdent.fromName s
  | .str => TypeIdent.fromName ("String")
  | .vec _ => TypeIdent.mk ("Vec") [TypeIdent.fromName ("T")]
  | .named n => TypeIdent.fromName n

/-- The `Type` registered for a user struct declaration: a `Struct` shape
derived from its field declarations (spec §4.2). -/
def declTy (n : String) (fs : List (String × TExpr)) : Ty :=
  Ty.struct
    { ident := TypeIdent.fromName n
      fields := fs.map (fun f =>
        { name := f.1, ty := f.2.identOf, doc_lines := [], attrs := {} })
      doc_lines := []
      options := {} }

mutual
/-- The resolver walk over type expressions, with an explicit fuel bound on
recursion depth (`none` = fuel exhausted).  The `prim`, `str` and `vec`
cases transcribe the corresponding impls of `serializable/mod.rs`
(register the own ident, then recurse unguarded into the type parameter).
The `named` case is modelled from the spec: the derive-generated
`collect_types` of a user-declared struct registers the struct ident
before recursing into its field types and does not recurse at all on a
revisit of an already-registered ident, which is what breaks cycles
(spec §4.2); a reference to an undeclared name is left to the
generation-time resolution error of spec §4.2 and treated as a leaf here. -/
def collectExpr : Nat → DeclEnv → TExpr → TypeMap → Option TypeMap
  | 0, _, _, _ => none
  | _ + 1, _, .prim s, m =>
      some (TypeMap.entry_or_insert_with m (TExpr.prim s).identOf (Ty.primitive s))
  | _ + 1, _, .str, m =>
      some (TypeMap.entry_or_insert_with m TExpr.str.identOf Ty.string)
  | fuel + 1, env, .vec t, m =>
      collectExpr fuel env t
        (TypeMap.entry_or_insert_with m (TExpr.vec t).identOf
          (Ty.list ("Vec") (TypeIdent.fromName ("T"))))
  | fuel + 1, env, .named n, m =>
      if TypeMap.containsKey m (TypeIdent.fromName n) then some m
      else
        match lookupDecl env n with
        | none => some m
        | some fs =>
            collectFields fuel env fs
              (TypeMap.entry_or_insert_with m (TypeIdent.fromName n) (declTy n fs))

/-- Folds the resolver walk over the fields of a struct declaration,
threading the growing type map. -/
def collectFields : Nat → DeclEnv → List (String × TExpr) → TypeMap → Option TypeMap
  | _, _, [], m => some m
  | fuel, env, f :: fs, m =>
      match collectExpr fuel env f.2 m with
      | none => none
      | some m2 => collectFields fuel env fs m2
end

/-- Structural size of a type expression. -/
def TExpr.sizeE : TExpr → Nat
  | .vec t => 1 + t.sizeE
  | _ => 1

/-- Total structural size of a field list. -/
def sizeFs : List (String × TExpr) → Nat
  | [] => 0
  | f :: fs => f.2.sizeE + sizeFs fs

/-- The termination measure contributed by the declarations not yet
registered in the map: each unregistered declaration still costs its own
registration step plus a walk over its fields. -/
def declWeight (env : DeclEnv) (m : TypeMap) : Nat :=
  match env with
  | [] => 0
  | (n, fs) :: rest =>
      (if TypeMap.containsKey m (TypeIdent.fromName n) then 0 else 1 + sizeFs fs) +
        declWeight rest m

theorem declWeight_mono (env : DeclEnv) (m m2 : TypeMap)
    (h : ∀ k, TypeMap.containsKey m k = true → TypeMap.containsKey m2 k = true) :
    declWeight env m2 ≤ declWeight env m := by
  induction env with
  | nil => simp [declWeight]
  | cons d rest ih =>
      obtain ⟨n, fs⟩ := d
      simp only [declWeight]
      by_cases hc : TypeMap.containsKey m (TypeIdent.fromName n) = true
      · rw [if_pos hc, if_pos (h _ hc)]
        omega
      · rw [if_neg hc]
        have : (if TypeMap.containsKey m2 (TypeIdent.fromName n) = true
            then 0 else 1 + sizeFs fs) ≤ 1 + sizeFs fs := by
          by_cases hc2 : TypeMap.containsKey m2 (TypeIdent.fromName n) = true
          · simp [hc2]
          · simp [hc2]
        omega

theorem declWeight_insert_le (env : DeclEnv) (m : TypeMap) (k : TypeIdent) (v : Ty) :
    declWeight env (TypeMap.entry_or_insert_with m k v) ≤ declWeight env m :=
  declWeight_mono env m _ (fun j hj => TypeMap.containsKey_insert_mono m k v j hj)

theorem TypeMap.containsKey_insert_of_ne (m : TypeMap) (k j : TypeIdent) (v : Ty)
    (hne : k ≠ j) :
    (m.entry_or_insert_with k v).containsKey j = m.containsKey j := by
  unfold TypeMap.entry_or_insert_with
  by_cases hc : m.containsKey k = true
  · simp [hc]
  · simp only [hc]
    simp only [Bool.false_eq_true, ite_false, TypeMap.containsKey_append]
    have hb : TypeIdent.beq k j = false := by
      by_contra hb
      simp only [Bool.not_eq_false] at hb
      exact hne ((TypeIdent.beq_iff k j).mp hb)
    simp [TypeMap.containsKey, hb]

theorem declWeight_insert_drop (env : DeclEnv) (m : TypeMap) (n : String)
    (fs : List (String × TExpr)) (v : Ty)
    (hl : lookupDecl env n = some fs)
    (hc : TypeMap.containsKey m (TypeIdent.fromName n) = false) :
    declWeight env (TypeMap.entry_or_insert_with m (TypeIdent.fromName n) v)
        + (1 + sizeFs fs) ≤ declWeight env m := by
  induction env with
  | nil => simp [lookupDecl] at hl
  | cons d rest ih =>
      obtain ⟨n1, fs1⟩ := d
      simp only [declWeight]
      by_cases he : n1 == n
      · have hn : n1 = n := by simpa using he
        subst hn
        have hfs : fs1 = fs := by
          simp [lookupDecl] at hl
          exact hl
        subst hfs
        rw [if_pos (TypeMap.containsKey_insert_self m (TypeIdent.fromName n1) v),
          if_neg (by simp [hc])]
        have := declWeight_insert_le rest m (TypeIdent.fromName n1) v
        omega
      · have hl2 : lookupDecl rest n = some fs := by
          simpa [lookupDecl, he] using hl
        have hne : TypeIdent.fromName n ≠ TypeIdent.fromName n1 := by
          intro hcontra
          apply he
          have : n = n1 := by
            have := congrArg (fun x => match x with | TypeIdent.mk s _ => s) hcontra
            simpa [TypeIdent.fromName] using this
          simp [this]
        rw [TypeMap.containsKey_insert_of_ne m _ _ v hne]
        have := ih hl2
        omega

theorem collect_mono_all : ∀ fuel : Nat,
    (∀ env e m m2, collectExpr fuel env e m = some m2 →
       ∀ k, TypeMap.containsKey m k = true → TypeMap.containsKey m2 k = true) ∧
    (∀ env fs m m2, collectFields fuel env fs m = some m2 →
       ∀ k, TypeMap.containsKey m k = true → TypeMap.containsKey m2 k = true) := by
  intro fuel
  induction fuel with
  | zero =>
      constructor
      · intro env e m m2 h
        simp [collectExpr] at h
      · intro env fs m m2 h k hk
        cases fs with
        | nil =>
            simp only [collectFields, Option.some.injEq] at h
            exact h ▸ hk
        | cons f fs =>
            simp [collectFields, collectExpr] at h
  | succ fuel ih =>
      obtain ⟨ihe, ihf⟩ := ih
      have hP : ∀ env e m m2, collectExpr (fuel + 1) env e m = some m2 →
          ∀ k, TypeMap.containsKey m k = true → TypeMap.containsKey m2 k = true := by
        intro env e m m2 h k hk
        cases e with
        | prim s =>
            simp only [collectExpr, Option.some.injEq] at h
            exact h ▸ TypeMap.containsKey_insert_mono _ _ _ _ hk
        | str =>
            simp only [collectExpr, Option.some.injEq] at h
            exact h ▸ TypeMap.containsKey_insert_mono _ _ _ _ hk
        | vec t =>
            simp only [collectExpr] at h
            exact ihe _ _ _ _ h k (TypeMap.containsKey_insert_mono _ _ _ _ hk)
        | named n =>
            simp only [collectExpr] at h
            by_cases hc : TypeMap.containsKey m (TypeIdent.fromName n) = true
            · rw [if_pos hc] at h
              cases h
              exact hk
            · rw [if_neg hc] at h
              cases hl : lookupDecl env n with
              | none =>
                  rw [hl] at h
                  cases h
                  exact hk
              | some fs =>
                  rw [hl] at h
                  exact ihf _ _ _ _ h k (TypeMap.containsKey_insert_mono _ _ _ _ hk)
      refine ⟨hP, ?_⟩
      intro env fs
      induction fs with
      | nil =>
          intro m m2 h k hk
          simp only [collectFields, Option.some.injEq] at h
          exact h ▸ hk
      | cons f fs ihfs =>
          intro m m2 h k hk
          simp only [collectFields] at h
          cases he : collectExpr (fuel + 1) env f.2 m with
          | none => rw [he] at h; cases h
          | some mid =>
              rw [he] at h
              exact ihfs _ _ h k (hP _ _ _ _ he k hk)

theorem collect_isSome_all : ∀ fuel : Nat,
    (∀ env e m, TExpr.sizeE e + declWeight env m < fuel →
       (collectExpr fuel env e m).isSome = true) ∧
    (∀ env fs m, sizeFs fs + declWeight env m < fuel →
       (collectFields fuel env fs m).isSome = true) := by
  intro fuel
  induction fuel with
  | zero =>
      constructor
      · intro env e m h
        omega
      · intro env fs m h
        omega
  | succ fuel ih =>
      obtain ⟨ihe, ihf⟩ := ih
      have hP : ∀ env e m, TExpr.sizeE e + declWeight env m < fuel + 1 →
          (collectExpr (fuel + 1) env e m).isSome = true := by
        intro env e m h
        cases e with
        | prim s => simp [collectExpr]
        | str => simp [collectExpr]
        | vec t =>
            simp only [collectExpr]
            apply ihe
            have hw := declWeight_insert_le env m (TExpr.vec t).identOf
              (Ty.list ("Vec") (TypeIdent.fromName ("T")))
            have hs : TExpr.sizeE (TExpr.vec t) = 1 + TExpr.sizeE t := rfl
            omega
        | named n =>
            simp only [collectExpr]
            by_cases hc : TypeMap.containsKey m (TypeIdent.fromName n) = true
            · simp [hc]
            · rw [if_neg hc]
              cases hl : lookupDecl env n with
              | none => simp
              | some fs =>
                  apply ihf
                  have hb : TypeMap.containsKey m (TypeIdent.fromName n) = false := by
                    simpa using hc
                  have hdrop := declWeight_insert_drop env m n fs (declTy n fs) hl hb
                  have hs : TExpr.sizeE (TExpr.named n) = 1 := rfl
                  omega
      refine ⟨hP, ?_⟩
      intro env fs
      induction fs with
      | nil =>
          intro m h
          simp [collectFields]
      | cons f fs ihfs =>
          intro m h
          simp only [collectFields]
          have hs : sizeFs (f :: fs) = TExpr.sizeE f.2 + sizeFs fs := rfl
          have h1 : (collectExpr (fuel + 1) env f.2 m).isSome = true := by
            apply hP
            omega
          cases he : collectExpr (fuel + 1) env f.2 m with
          | none => rw [he] at h1; simp at h1
          | some mid =>
              apply ihfs
              have hw : declWeight env mid ≤ declWeight env m :=
                declWeight_mono env m mid
                  (fun k hk => (collect_mono_all (fuel + 1)).1 env f.2 m mid he k hk)
              omega

/-- C5: the resolver walk terminates for every type expression, including
recursive type definitions (a struct containing a `Vec` of itself): any
fuel beyond the structural size of the expression plus the weight of the
not-yet-registered declarations suffices, because every implementation
registers the type ident before recursing into dependencies; moreover a
revisit of an already-registered struct ident does not recurse at all
(it returns the map unchanged), which is what breaks every cycle. -/
theorem C5_collect_types_terminates :
    (∀ (env : DeclEnv) (e : TExpr) (m : TypeMap) (fuel : Nat),
        TExpr.sizeE e + declWeight env m < fuel →
        ∃ m2, collectExpr fuel env e m = some m2) ∧
    (∀ (env : DeclEnv) (n : String) (m : TypeMap) (fuel : Nat),
        TypeMap.containsKey m (TypeIdent.fromName n) = true →
        collectExpr (fuel + 1) env (TExpr.named n) m = some m) := by
  constructor
  · intro env e m fuel h
    have := (collect_isSome_all fuel).1 env e m h
    cases hc : collectExpr fuel env e m with
    | none => rw [hc] at this; simp at this
    | some m2 => exact ⟨m2, rfl⟩
  · intro env n m fuel h
    simp [collectExpr, h]

/-- The recursive declaration from the spec scenario: a struct `Node`
containing a `Vec` of itself. -/
def nodeEnv : DeclEnv := [(("Node"), [(("children"), TExpr.vec (TExpr.named ("Node")))])]

/-- A map on which `Node` is already registered. -/
def nodeSeenMap : TypeMap := [(TypeIdent.fromName ("Node"), Ty.unit)]

/-- Witness for C5 at the recursive declaration `Node { children: Vec<Node> }`:
the walk from the empty map succeeds with fuel 5, and with `Node` already
registered a revisit returns the map unchanged. -/
theorem C5_collect_types_terminates_witness :
    (TExpr.sizeE (TExpr.named ("Node")) + declWeight nodeEnv ([] : TypeMap) < 5 ∧
      ∃ m2, collectExpr 5 nodeEnv (TExpr.named ("Node")) [] = some m2) ∧
    (TypeMap.containsKey nodeSeenMap (TypeIdent.fromName ("Node")) = true ∧
      collectExpr 1 nodeEnv (TExpr.named ("Node")) nodeSeenMap = some nodeSeenMap) :=
  ⟨⟨by decide,
    C5_collect_types_terminates.1 nodeEnv (TExpr.named ("Node")) [] 5 (by decide)⟩,
   ⟨by decide,
    C5_collect_types_terminates.2 nodeEnv ("Node") nodeSeenMap 0 (by decide)⟩⟩

/-- Byte buffers crossing the guest/host boundary. -/
abbrev Bytes := List Nat

/-- The packed pointer/length handle referencing a value in guest memory,
kept abstract as a single number. -/
abbrev FatPtr := Nat

/-- Modelled from the spec: the guest-instance state observable through the
engine contract of §6 — guest linear memory holding the transferred values
keyed by fat pointer, the allocation cursor, allocation/deallocation
counters (memory discipline, §8), the pending-futures table and the record
of calls into the guest async resolver entry point (§4.4).
`RuntimeInstanceData::default()` links to this state freshly per call. -/
structure GuestMem where
  data : List (FatPtr × Bytes)
  next : FatPtr
  allocs : Nat
  deallocs : Nat
  futures : List FatPtr
  resolutions : List (FatPtr × FatPtr)
deriving DecidableEq

/-- The bytes stored in guest memory under a fat pointer ([] if absent). -/
def findBytes : List (FatPtr × Bytes) → FatPtr → Bytes
  | [], _ => []
  | (p, bs) :: rest, ptr => if p == ptr then bs else findBytes rest ptr

/-- Removes the allocation referenced by a fat pointer. -/
def removePtr : List (FatPtr × Bytes) → FatPtr → List (FatPtr × Bytes)
  | [], _ => []
  | (p, bs) :: rest, ptr => if p == ptr then rest else (p, bs) :: removePtr rest ptr

/-- Modelled from the spec: `export_to_guest_raw` (fp-bindgen-support) asks
the guest allocator for a buffer, copies the bytes in, and returns the fat
pointer (§4.4, guest-to-host direction). -/
def export_to_guest_raw (env : GuestMem) (bytes : Bytes) : FatPtr × GuestMem :=
  (env.next,
   { env with
      data := env.data ++ [(env.next, bytes)]
      next := env.next + 1
      allocs := env.allocs + 1 })

/-- Modelled from the spec: `export_to_guest` serializes the value and hands
the bytes to `export_to_guest_raw`; the codec is opaque (§4.4) and passed in. -/
def export_to_guest {α : Type} (serialize_to_vec : α → Bytes) (env : GuestMem)
    (value : α) : FatPtr × GuestMem :=
  export_to_guest_raw env (serialize_to_vec value)

/-- Modelled from the spec: `import_from_guest_raw` copies the bytes out of
guest memory and arranges the matching deallocation (§4.4). -/
def import_from_guest_raw (env : GuestMem) (ptr : FatPtr) : Bytes × GuestMem :=
  (findBytes env.data ptr,
   { env with data := removePtr env.data ptr, deallocs := env.deallocs + 1 })

/-- Modelled from the spec: `import_from_guest` reads, frees and then
deserializes with the opaque codec. -/
def import_from_guest {α : Type} (deserialize_from_slice : Bytes → α)
    (env : GuestMem) (ptr : FatPtr) : α × GuestMem :=
  let raw := import_from_guest_raw env ptr
  (deserialize_from_slice raw.1, raw.2)

/-- Modelled from the spec: `create_future_value` allocates a fresh opaque
async handle and registers it in the pending-futures table (§4.4 steps 1-2). -/
def create_future_value (env : GuestMem) : FatPtr × GuestMem :=
  (env.next,
   { env with next := env.next + 1, futures := env.futures ++ [env.next] })

/-- Modelled from the spec: `RuntimeInstanceData::guest_resolve_async_value`
invokes the guest-side resolver entry point with the handle and the fat
pointer to the result bytes (§4.4 step 3); the model records each such
call. -/
def guest_resolve_async_value (env : GuestMem) (handle : FatPtr)
    (result_ptr : FatPtr) : GuestMem :=
  { env with resolutions := env.resolutions ++ [(handle, result_ptr)] }

/-- Modelled from the spec: an opaque engine-level failure during guest
execution (trap/fault, §7). -/
inductive RuntimeError
| trap
deriving DecidableEq

/-- Modelled from the spec: a guest export callable by name with
integer/fat-pointer arguments, returning an integer/fat-pointer result and
possibly acting on instance memory, or failing with an engine error (§6). -/
def GuestFn := List Nat → GuestMem → Except RuntimeError (Nat × GuestMem)

/-- A compiled wasm module: the exports an instantiation provides, and the
instance state instantiation starts from. -/
structure Module where
  exports : List (String × GuestFn)
  initialMem : GuestMem

/-- `Runtime { module: Module }` from the generated bindings: the only state
a `Runtime` value carries is the compiled module. -/
structure Runtime where
  module : Module

/-- A live guest instance: its function table and its memory. -/
structure Instance where
  exports : List (String × GuestFn)
  mem : GuestMem

/-- Modelled from the spec: `Instance::new(&module, &import_object)` builds
a fresh instance from the module blueprint; instance state is created anew
on every instantiation (§6). -/
def Instance.new (module : Module) : Instance :=
  { exports := module.exports, mem := module.initialMem }

/-- Modelled from the spec: `instance.exports.get_native_function(name)` —
the engine resolves an export purely by name (§6(a)). -/
def get_native_function (exports : List (String × GuestFn)) (name : String) :
    Option GuestFn :=
  match exports with
  | [] => none
  | (n, f) :: rest => if n == name then some f else get_native_function rest name

/-- Modelled from the spec: the call-level errors reported to the caller
(§7): the named export is missing from the instance's function table, or a
lower-level engine failure surfaced during the call. -/
inductive InvocationError
| functionNotExported
| runtimeError (e : RuntimeError)
deriving DecidableEq

/-- `Runtime::export_string_raw` (expected_bindings.rs lines 606-619): fresh
`RuntimeInstanceData`, fresh `Instance` from the stored module, write the
argument bytes into guest memory, look up `__fp_gen_export_string` (a
missing export maps to `InvocationError::FunctionNotExported`), call it, and
read the result bytes back out.  The final instance memory — dropped
implicitly by Rust when `env` and `instance` go out of scope — is returned
alongside so the theorems can observe it. -/
def Runtime.export_string_raw (rt : Runtime) (arg : Bytes) :
    Except InvocationError Bytes × GuestMem :=
  let inst := Instance.new rt.module
  let argPair := export_to_guest_raw inst.mem arg
  match get_native_function inst.exports ("__fp_gen_export_string") with
  | none => (Except.error InvocationError.functionNotExported, argPair.2)
  | some f =>
      match f [argPair.1] argPair.2 with
      | Except.error e => (Except.error (InvocationError.runtimeError e), argPair.2)
      | Except.ok res =>
          let imported := import_from_guest_raw res.2 res.1
          (Except.ok imported.1, imported.2)

/-- `Runtime::export_string` (lines 600-605): serialize the argument,
delegate to the raw variant, deserialize the successful result.  The codec
functions of fp-bindgen-support are opaque parameters. -/
def Runtime.export_string (rt : Runtime) (serialize_to_vec : String → Bytes)
    (deserialize_from_slice : Bytes → String) (arg : String) :
    Except InvocationError String :=
  let arg := serialize_to_vec arg
  let result := (rt.export_string_raw arg).1
  let result := result.map (fun data => deserialize_from_slice data)
  result

/-- `Runtime::export_fp_struct_raw` (lines 179-192): identical shape to
`export_string_raw` for the export named `__fp_gen_export_fp_struct`. -/
def Runtime.export_fp_struct_raw (rt : Runtime) (arg : Bytes) :
    Except InvocationError Bytes × GuestMem :=
  let inst := Instance.new rt.module
  let argPair := export_to_guest_raw inst.mem arg
  match get_native_function inst.exports ("__fp_gen_export_fp_struct") with
  | none => (Except.error InvocationError.functionNotExported, argPair.2)
  | some f =>
      match f [argPair.1] argPair.2 with
      | Except.error e => (Except.error (InvocationError.runtimeError e), argPair.2)
      | Except.ok res =>
          let imported := import_from_guest_raw res.2 res.1
          (Except.ok imported.1, imported.2)

/-- `Runtime::export_fp_struct` (lines 170-178): serialize, delegate to the
raw variant, deserialize; the struct type `FpPropertyRenaming` is opaque. -/
def Runtime.export_fp_struct {FpPropertyRenaming : Type} (rt : Runtime)
    (serialize_to_vec : FpPropertyRenaming → Bytes)
    (deserialize_from_slice : Bytes → FpPropertyRenaming)
    (arg : FpPropertyRenaming) : Except InvocationError FpPropertyRenaming :=
  let arg := serialize_to_vec arg
  let result := (rt.export_fp_struct_raw arg).1
  let result := result.map (fun data => deserialize_from_slice data)
  result

/-- `Runtime::export_fp_adjacently_tagged_raw` (lines 80-96): identical
shape for the export named `__fp_gen_export_fp_adjacently_tagged`. -/
def Runtime.export_fp_adjacently_tagged_raw (rt : Runtime) (arg : Bytes) :
    Except InvocationError Bytes × GuestMem :=
  let inst := Instance.new rt.module
  let argPair := export_to_guest_raw inst.mem arg
  match get_native_function inst.exports ("__fp_gen_export_fp_adjacently_tagged") with
  | none => (Except.error InvocationError.functionNotExported, argPair.2)
  | some f =>
      match f [argPair.1] argPair.2 with
      | Except.error e => (Except.error (InvocationError.runtimeError e), argPair.2)
      | Except.ok res =>
          let imported := import_from_guest_raw res.2 res.1
          (Except.ok imported.1, imported.2)

/-- `Runtime::export_void_function_raw` (lines 646-657): no argument and no
result cross the boundary; only the lookup and the native call happen. -/
def Runtime.export_void_function_raw (rt : Runtime) :
    Except InvocationError Unit × GuestMem :=
  let inst := Instance.new rt.module
  match get_native_function inst.exports ("__fp_gen_export_void_function") with
  | none => (Except.error InvocationError.functionNotExported, inst.mem)
  | some f =>
      match f [] inst.mem with
      | Except.error e => (Except.error (InvocationError.runtimeError e), inst.mem)
      | Except.ok res => (Except.ok (), res.2)

/-- `Runtime::export_primitive_u32_raw` (lines 406-417): the `u32` argument
and result are passed as native values; no `export_to_guest` /
`import_from_guest` call appears, so the wrapper itself performs no guest
memory operation at all. -/
def Runtime.export_primitive_u32_raw (rt : Runtime) (arg : Nat) :
    Except InvocationError Nat × GuestMem :=
  let inst := Instance.new rt.module
  match get_native_function inst.exports ("__fp_gen_export_primitive_u32") with
  | none => (Except.error InvocationError.functionNotExported, inst.mem)
  | some f =>
      match f [arg] inst.mem with
      | Except.error e => (Except.error (InvocationError.runtimeError e), inst.mem)
      | Except.ok res => (Except.ok res.1, res.2)

/-- `Runtime::export_primitive_u32` (lines 402-405): the typed level just
delegates — no serialization step exists for primitive signatures. -/
def Runtime.export_primitive_u32 (rt : Runtime) (arg : Nat) :
    Except InvocationError Nat :=
  (rt.export_primitive_u32_raw arg).1

/-- `_import_primitive_u32` (lines 852-855): the host wrapper passes the
native `u32` straight to the user implementation; `env` is never touched.
The user function `super::import_primitive_u32` is a parameter. -/
def _import_primitive_u32 (import_primitive_u32 : Nat → Nat) (env : GuestMem)
    (arg : Nat) : Nat × GuestMem :=
  (import_primitive_u32 arg, env)

/-- `_import_multiple_primitives` (lines 806-810): the primitive `i8`
argument arrives natively, while the `String` argument arrives as a fat
pointer and goes through `import_from_guest`; the `i64` result is returned
natively. -/
def _import_multiple_primitives (import_multiple_primitives : Int → String → Int)
    (deserialize_from_slice : Bytes → String) (env : GuestMem) (arg1 : Int)
    (arg2 : FatPtr) : Int × GuestMem :=
  let imported := import_from_guest deserialize_from_slice env arg2
  let result := import_multiple_primitives arg1 imported.1
  (result, imported.2)

/-- Tags naming the host functions that `create_import_object` wires into
the import table (the Rust closures close over a clone of `env`). -/
inductive HostFunc
| resolve_async_value
| import_fp_adjacently_tagged
| import_fp_enum
| import_fp_flatten
| import_fp_internally_tagged
| import_fp_struct
| import_fp_untagged
| import_generics
| import_multiple_primitives
| import_primitive_bool
| import_primitive_f32
| import_primitive_f64
| import_primitive_i16
| import_primitive_i32
| import_primitive_i64
| import_primitive_i8
| import_primitive_u16
| import_primitive_u32
| import_primitive_u64
| import_primitive_u8
| import_serde_adjacently_tagged
| import_serde_enum
| import_serde_flatten
| import_serde_internally_tagged
| import_serde_struct
| import_serde_untagged
| import_string
| import_timestamp
| import_void_function
| log
| make_http_request
deriving DecidableEq

/-- `create_import_object` (lines 726-762): the full import table of the
`"fp"` namespace, mapping each wire name to the host function it is wired
to; in particular the single async resolver entry point
`__fp_host_resolve_async_value` is wired to `resolve_async_value`. -/
def create_import_object : List (String × HostFunc) :=
  [(("__fp_host_resolve_async_value"), HostFunc.resolve_async_value),
   (("__fp_gen_import_fp_adjacently_tagged"), HostFunc.import_fp_adjacently_tagged),
   (("__fp_gen_import_fp_enum"), HostFunc.import_fp_enum),
   (("__fp_gen_import_fp_flatten"), HostFunc.import_fp_flatten),
   (("__fp_gen_import_fp_internally_tagged"), HostFunc.import_fp_internally_tagged),
   (("__fp_gen_import_fp_struct"), HostFunc.import_fp_struct),
   (("__fp_gen_import_fp_untagged"), HostFunc.import_fp_untagged),
   (("__fp_gen_import_generics"), HostFunc.import_generics),
   (("__fp_gen_import_multiple_primitives"), HostFunc.import_multiple_primitives),
   (("__fp_gen_import_primitive_bool"), HostFunc.import_primitive_bool),
   (("__fp_gen_import_primitive_f32"), HostFunc.import_primitive_f32),
   (("__fp_gen_import_primitive_f64"), HostFunc.import_primitive_f64),
   (("__fp_gen_import_primitive_i16"), HostFunc.import_primitive_i16),
   (("__fp_gen_import_primitive_i32"), HostFunc.import_primitive_i32),
   (("__fp_gen_import_primitive_i64"), HostFunc.import_primitive_i64),
   (("__fp_gen_import_primitive_i8"), HostFunc.import_primitive_i8),
   (("__fp_gen_import_primitive_u16"), HostFunc.import_primitive_u16),
   (("__fp_gen_import_primitive_u32"), HostFunc.import_primitive_u32),
   (("__fp_gen_import_primitive_u64"), HostFunc.import_primitive_u64),
   (("__fp_gen_import_primitive_u8"), HostFunc.import_primitive_u8),
   (("__fp_gen_import_serde_adjacently_tagged"), HostFunc.import_serde_adjacently_tagged),
   (("__fp_gen_import_serde_enum"), HostFunc.import_serde_enum),
   (("__fp_gen_import_serde_flatten"), HostFunc.import_serde_flatten),
   (("__fp_gen_import_serde_internally_tagged"), HostFunc.import_serde_internally_tagged),
   (("__fp_gen_import_serde_struct"), HostFunc.import_serde_struct),
   (("__fp_gen_import_serde_untagged"), HostFunc.import_serde_untagged),
   (("__fp_gen_import_string"), HostFunc.import_string),
   (("__fp_gen_import_timestamp"), HostFunc.import_timestamp),
   (("__fp_gen_import_void_function"), HostFunc.import_void_function),
   (("__fp_gen_log"), HostFunc.log),
   (("__fp_gen_make_http_request"), HostFunc.make_http_request)]

/-- First host function registered under the given wire name, if any. -/
def lookupImport : List (String × HostFunc) → String → Option HostFunc
  | [], _ => none
  | (n, f) :: rest, name => if n == name then some f else lookupImport rest name

/-- The two phases of an asynchronous import call as seen from the guest:
the value returned immediately together with the guest state at return
time, and the effect the spawned completion applies to the guest state
once the underlying work finishes. -/
structure AsyncOutcome where
  returned : FatPtr
  immediateMem : GuestMem
  completion : GuestMem → GuestMem

/-- `_make_http_request` (lines 926-938): the wrapper reads the request out
of guest memory, invokes the user handler (an async computation, abstracted
here by the value `make_http_request request` it eventually resolves to),
creates an opaque async handle via `create_future_value`, spawns the
completion — which, once the work finishes, writes the serialized result
into guest memory via `export_to_guest` and delivers it through the single
resolver entry point `guest_resolve_async_value` — and immediately returns
the handle.  The spawned block is represented by the `completion` function
over the guest state at completion time. -/
def _make_http_request {Request HttpResult : Type}
    (deserialize_from_slice : Bytes → Request)
    (serialize_to_vec : HttpResult → Bytes)
    (make_http_request : Request → HttpResult)
    (env : GuestMem) (request : FatPtr) : AsyncOutcome :=
  let imported := import_from_guest deserialize_from_slice env request
  let result := make_http_request imported.1
  let created := create_future_value imported.2
  { returned := created.1
    immediateMem := created.2
    completion := fun envLater =>
      let exported := export_to_guest serialize_to_vec envLater result
      guest_resolve_async_value exported.2 created.1 exported.1 }

/-- C6: for the asynchronous import call `make_http_request`, the host
wrapper returns the opaque async handle immediately — at return time the
handle is registered as pending and no resolution has been delivered — and
the result bytes are delivered later solely by the spawned completion,
which writes the serialized result into guest memory and invokes the single
well-known resolver entry point with exactly that handle and the fat
pointer to those bytes; moreover the import table wires
`__fp_host_resolve_async_value` to `resolve_async_value`. -/
theorem C6_async_import_two_phase {Request HttpResult : Type}
    (deserialize_from_slice : Bytes → Request)
    (serialize_to_vec : HttpResult → Bytes)
    (make_http_request : Request → HttpResult)
    (env : GuestMem) (request : FatPtr) :
    ((_make_http_request deserialize_from_slice serialize_to_vec
        make_http_request env request).immediateMem.resolutions = env.resolutions) ∧
    ((_make_http_request deserialize_from_slice serialize_to_vec
        make_http_request env request).returned ∈
      (_make_http_request deserialize_from_slice serialize_to_vec
        make_http_request env request).immediateMem.futures) ∧
    (∀ later : GuestMem,
      ((_make_http_request deserialize_from_slice serialize_to_vec
          make_http_request env request).completion later).resolutions =
        later.resolutions ++
          [((_make_http_request deserialize_from_slice serialize_to_vec
              make_http_request env request).returned, later.next)] ∧
      ((_make_http_request deserialize_from_slice serialize_to_vec
          make_http_request env request).completion later).data =
        later.data ++
          [(later.next,
            serialize_to_vec (make_http_request
              (deserialize_from_slice (findBytes env.data request))))]) ∧
    (lookupImport create_import_object ("__fp_host_resolve_async_value") =
      some HostFunc.resolve_async_value) := by
  refine ⟨rfl, ?_, fun later => ⟨rfl, rfl⟩, rfl⟩
  simp [_make_http_request, create_future_value, import_from_guest,
    import_from_guest_raw]

/-- C7: for the host-side export wrappers `export_string_raw` and
`export_void_function_raw`, a missing guest export yields the call-level
`Err(InvocationError::FunctionNotExported)` (no panic, no instance
teardown), and whenever the export is present by name, the wrapper never
produces that error. -/
theorem C7_missing_export_reported_as_call_error (rt : Runtime) (arg : Bytes) :
    (get_native_function rt.module.exports ("__fp_gen_export_string") = none →
        (rt.export_string_raw arg).1 = Except.error InvocationError.functionNotExported) ∧
    (∀ f, get_native_function rt.module.exports ("__fp_gen_export_string") = some f →
        (rt.export_string_raw arg).1 ≠ Except.error InvocationError.functionNotExported) ∧
    (get_native_function rt.module.exports ("__fp_gen_export_void_function") = none →
        (rt.export_void_function_raw).1 = Except.error InvocationError.functionNotExported) ∧
    (∀ f, get_native_function rt.module.exports ("__fp_gen_export_void_function") = some f →
        (rt.export_void_function_raw).1 ≠ Except.error InvocationError.functionNotExported) := by
  refine ⟨?_, ?_, ?_, ?_⟩
  · intro h
    simp only [Runtime.export_string_raw, Instance.new]
    rw [h]
  · intro f hf
    simp only [Runtime.export_string_raw, Instance.new]
    rw [hf]
    cases hr : f [(export_to_guest_raw rt.module.initialMem arg).1]
        (export_to_guest_raw rt.module.initialMem arg).2 with
    | error e => simp [hr]
    | ok res => simp [hr]
  · intro h
    simp only [Runtime.export_void_function_raw, Instance.new]
    rw [h]
  · intro f hf
    simp only [Runtime.export_void_function_raw, Instance.new]
    rw [hf]
    cases hr : f [] rt.module.initialMem with
    | error e => simp [hr]
    | ok res => simp [hr]

/-- The completely empty guest state. -/
def emptyMem : GuestMem :=
  { data := [], next := 0, allocs := 0, deallocs := 0, futures := [], resolutions := [] }

/-- A guest export that returns 0 and leaves memory untouched. -/
def demoGuestFn : GuestFn := fun _ mem => Except.ok (0, mem)

/-- A module exporting nothing. -/
def demoModuleMissing : Module := { exports := [], initialMem := emptyMem }

/-- A module exporting `__fp_gen_export_string` and
`__fp_gen_export_void_function`. -/
def demoModulePresent : Module :=
  { exports := [(("__fp_gen_export_string"), demoGuestFn),
                (("__fp_gen_export_void_function"), demoGuestFn)]
    initialMem := emptyMem }

/-- Witness for C7 at concrete modules: with no exports both wrappers report
`FunctionNotExported`; with the exports present neither does. -/
theorem C7_missing_export_reported_as_call_error_witness :
    (((Runtime.mk demoModuleMissing).export_string_raw []).1 =
        Except.error InvocationError.functionNotExported) ∧
    (((Runtime.mk demoModulePresent).export_string_raw []).1 ≠
        Except.error InvocationError.functionNotExported) ∧
    (((Runtime.mk demoModuleMissing).export_void_function_raw).1 =
        Except.error InvocationError.functionNotExported) ∧
    (((Runtime.mk demoModulePresent).export_void_function_raw).1 ≠
        Except.error InvocationError.functionNotExported) :=
  ⟨(C7_missing_export_reported_as_call_error (Runtime.mk demoModuleMissing) []).1 rfl,
   (C7_missing_export_reported_as_call_error (Runtime.mk demoModulePresent) []).2.1
      demoGuestFn rfl,
   (C7_missing_export_reported_as_call_error (Runtime.mk demoModuleMissing) []).2.2.1 rfl,
   (C7_missing_export_reported_as_call_error (Runtime.mk demoModulePresent) []).2.2.2
      demoGuestFn rfl⟩

/-- C8: wrappers for all-primitive signatures pass values as native scalars
with no serialization step and no guest allocation: `export_primitive_u32_raw`
hands the guest function the untouched initial instance memory and returns
its native result and memory unchanged (so the wrapper contributes zero net
guest allocations), `_import_primitive_u32` ignores the guest state
entirely, and in `_import_multiple_primitives` only the `String` argument
travels through guest memory (read and freed) while the `i8` passes
natively. -/
theorem C8_primitive_signatures_bypass_fat_pointer_path :
    (∀ (rt : Runtime) (arg : Nat) (f : GuestFn) (r : Nat) (mem2 : GuestMem),
        get_native_function rt.module.exports ("__fp_gen_export_primitive_u32") = some f →
        f [arg] rt.module.initialMem = Except.ok (r, mem2) →
        rt.export_primitive_u32_raw arg = (Except.ok r, mem2) ∧
        rt.export_primitive_u32 arg = Except.ok r) ∧
    (∀ (import_primitive_u32 : Nat → Nat) (env : GuestMem) (arg : Nat),
        _import_primitive_u32 import_primitive_u32 env arg =
          (import_primitive_u32 arg, env)) ∧
    (∀ (import_multiple_primitives : Int → String → Int)
        (deserialize_from_slice : Bytes → String) (env : GuestMem)
        (arg1 : Int) (arg2 : FatPtr),
        _import_multiple_primitives import_multiple_primitives
            deserialize_from_slice env arg1 arg2 =
          (import_multiple_primitives arg1 (deserialize_from_slice (findBytes env.data arg2)),
           { env with data := removePtr env.data arg2, deallocs := env.deallocs + 1 })) := by
  refine ⟨?_, fun _ _ _ => rfl, fun _ _ _ _ _ => rfl⟩
  intro rt arg f r mem2 hf hcall
  have hraw : rt.export_primitive_u32_raw arg = (Except.ok r, mem2) := by
    simp only [Runtime.export_primitive_u32_raw, Instance.new, hf, hcall]
  exact ⟨hraw, by simp only [Runtime.export_primitive_u32, hraw]⟩

/-- A guest export computing natively on its scalar argument. -/
def demoU32Fn : GuestFn := fun args mem => Except.ok (args.headD 0 + 3, mem)

/-- A module exporting only `__fp_gen_export_primitive_u32`. -/
def demoU32Module : Module :=
  { exports := [(("__fp_gen_export_primitive_u32"), demoU32Fn)], initialMem := emptyMem }

/-- Witness for C8 at a concrete module: the primitive call on argument 2
returns 5 natively and the guest memory after the call is exactly the
initial (empty) memory — zero net guest allocations. -/
theorem C8_primitive_signatures_bypass_fat_pointer_path_witness :
    (Runtime.mk demoU32Module).export_primitive_u32_raw 2 = (Except.ok 5, emptyMem) ∧
    (Runtime.mk demoU32Module).export_primitive_u32 2 = Except.ok 5 :=
  C8_primitive_signatures_bypass_fat_pointer_path.1 (Runtime.mk demoU32Module) 2
    demoU32Fn 5 emptyMem rfl rfl

/-- The typed export level as the claim words it: deserialization composed
with the raw variant composed with serialization, for `export_string`. -/
def export_string_spec (rt : Runtime) (serialize_to_vec : String → Bytes)
    (deserialize_from_slice : Bytes → String) (arg : String) :
    Except InvocationError String :=
  ((rt.export_string_raw (serialize_to_vec arg)).1).map deserialize_from_slice

/-- The typed export level as the claim words it, for `export_fp_struct`. -/
def export_fp_struct_spec {FpPropertyRenaming : Type} (rt : Runtime)
    (serialize_to_vec : FpPropertyRenaming → Bytes)
    (deserialize_from_slice : Bytes → FpPropertyRenaming)
    (arg : FpPropertyRenaming) : Except InvocationError FpPropertyRenaming :=
  ((rt.export_fp_struct_raw (serialize_to_vec arg)).1).map deserialize_from_slice

/-- C9: each typed host-side export method with a non-primitive signature
equals the composition deserialize-after-raw-after-serialize of its `_raw`
variant, for every choice of codec: the typed and raw API levels coincide
exactly. -/
theorem C9_typed_is_deserialize_raw_serialize (rt : Runtime) :
    (∀ (serialize_to_vec : String → Bytes) (deserialize_from_slice : Bytes → String)
        (arg : String),
        rt.export_string serialize_to_vec deserialize_from_slice arg =
          export_string_spec rt serialize_to_vec deserialize_from_slice arg) ∧
    (∀ (FpPropertyRenaming : Type) (serialize_to_vec : FpPropertyRenaming → Bytes)
        (deserialize_from_slice : Bytes → FpPropertyRenaming)
        (arg : FpPropertyRenaming),
        rt.export_fp_struct serialize_to_vec deserialize_from_slice arg =
          export_fp_struct_spec rt serialize_to_vec deserialize_from_slice arg) :=
  ⟨fun _ _ _ => rfl, fun _ _ _ _ => rfl⟩

/-- Two successive raw string-export calls through the same `Runtime`. -/
def runTwoStringCalls (rt : Runtime) (a b : Bytes) :
    (Except InvocationError Bytes × GuestMem) ×
      (Except InvocationError Bytes × GuestMem) :=
  (rt.export_string_raw a, rt.export_string_raw b)

/-- C10: every raw call builds a fresh environment and a fresh instance from
the stored module, so the result of an export call depends only on the
module: two `Runtime` values with the same module behave identically on
every call, and of two successive calls through one `Runtime` the second
result is exactly what a standalone call would produce — no guest state
persists between calls. -/
theorem C10_raw_calls_independent_of_history (rt1 rt2 : Runtime)
    (h : rt1.module = rt2.module) :
    (∀ arg, rt1.export_string_raw arg = rt2.export_string_raw arg) ∧
    (∀ arg, rt1.export_fp_adjacently_tagged_raw arg =
        rt2.export_fp_adjacently_tagged_raw arg) ∧
    (∀ a b, runTwoStringCalls rt1 a b =
        (rt2.export_string_raw a, rt2.export_string_raw b)) := by
  cases rt1
  cases rt2
  cases h
  exact ⟨fun _ => rfl, fun _ => rfl, fun _ _ => rfl⟩

/-- Witness for C10 at a concrete module: two `Runtime` values over the same
module agree on a string-export call. -/
theorem C10_raw_calls_independent_of_history_witness :
    (Runtime.mk demoModulePresent).export_string_raw [] =
      (Runtime.mk demoModulePresent).export_string_raw [] :=
  (C10_raw_calls_independent_of_history (Runtime.mk demoModulePresent)
    (Runtime.mk demoModulePresent) rfl).1 []

end FpBindgen
